import Mathlib

/-!
Shallow embedding of the scribe note-processing core: the Note data model,
the NoteService CRUD/search operations (`app/services/note_service.py`), the
background pipeline tasks (`app/tasks/processing_tasks.py`), the notification
task (`app/tasks/notification_tasks.py`), the enrichment response parsing
(`app/services/ollama_service.py`), the notification scheduler helper, and the
per-user SSE event manager (`app/utils/events.py`).

Machine conventions: wall-clock timestamps are modelled as `Int`; embedding
blobs as lists of bytes (`List Nat`); database rows as a list of `Note`
records looked up by primary key; external calls (transcription, the LLM,
the embedding endpoint) as `Except`-valued oracles supplied through a
`PipelineEnv`, mirroring Python exceptions with `Except.error`.
-/

namespace Scribe

/-- Serialized embedding blob, as stored in the `embedding` BLOB column. -/
abbrev Bytes := List Nat

/-- Row of the `notes` table (`app/models/note.py`). -/
structure Note where
  id : Nat
  user_id : Nat
  raw_transcript : String
  summary : Option String
  tag : Option String
  notification_timestamp : Option Int
  audio_path : Option String
  embedding : Option Bytes
  processing_status : String
  error_message : Option String
  archived : Bool
  created_at : Int
  updated_at : Int
deriving Repr, DecidableEq

/-- The notes table: a list of rows. -/
abbrev DB := List Note

/-- Lookup by primary key, as `session.get(Note, note_id)`. -/
def dbGet (db : DB) (note_id : Nat) : Option Note :=
  db.find? (fun n => n.id == note_id)

/-- Commit a mutated row: replace every row carrying the same primary key. -/
def dbSet (db : DB) (n : Note) : DB :=
  db.map (fun m => if m.id == n.id then n else m)

/-- NoteService.get_note: lookup plus ownership check; `none` models the
raised `NotFoundError`. -/
def getNote (db : DB) (note_id user_id : Nat) : Option Note :=
  match dbGet db note_id with
  | some n => if n.user_id == user_id then some n else none
  | none => none

/-- NoteService.update_note: optionally set transcript (resetting
`processing_status` to pending), summary and tag, then stamp `updated_at`
and commit. Returns the new table and the committed row; `none` models
`NotFoundError`. -/
def update_note (db : DB) (now : Int) (note_id user_id : Nat)
    (raw_transcript summary tag : Option String) : Option (DB × Note) :=
  match getNote db note_id user_id with
  | none => none
  | some note =>
    let n1 := match raw_transcript with
      | some t => { note with raw_transcript := t, processing_status := "pending" }
      | none => note
    let n2 := match summary with
      | some s => { n1 with summary := some s }
      | none => n1
    let n3 := match tag with
      | some t => { n2 with tag := some t }
      | none => n2
    let n4 := { n3 with updated_at := now }
    some (dbSet db n4, n4)

/-- Scheduled one-shot notification jobs, keyed by note id with the job's
`run_date`; mirrors APScheduler jobs with id `note_notification_{note_id}`. -/
abbrev Jobs := List (Nat × Int)

/-- NoteService.delete_note: removes the row (the stored embedding is a
column of the row, so the vector entry goes with it); the audio file unlink
is a filesystem effect outside the model. The scheduler jobs are not
touched, exactly as in the source. `none` models `NotFoundError`. -/
def delete_note (db : DB) (jobs : Jobs) (note_id user_id : Nat) :
    Option (DB × Jobs) :=
  match getNote db note_id user_id with
  | none => none
  | some _ => some (db.filter (fun n => n.id != note_id), jobs)

section DbLemmas

theorem dbGet_id_eq {db : DB} {i : Nat} {n : Note} (h : dbGet db i = some n) :
    n.id = i := by
  have hp := List.find?_some h
  simpa using hp

theorem dbGet_mem {db : DB} {i : Nat} {n : Note} (h : dbGet db i = some n) :
    n ∈ db :=
  List.mem_of_find?_eq_some h

theorem dbGet_dbSet_self {db : DB} {i : Nat} {m : Note} (n : Note)
    (hm : dbGet db i = some m) (hid : n.id = i) :
    dbGet (dbSet db n) i = some n := by
  induction db with
  | nil => simp [dbGet] at hm
  | cons a t ih =>
    by_cases ha : a.id = i
    · have he : a.id = n.id := by rw [ha, hid]
      have hds : dbSet (a :: t) n = n :: dbSet t n := by
        simp [dbSet, he]
      have h3 : (n.id == i) = true := by simp [hid]
      rw [hds]
      simp [dbGet, List.find?_cons, h3]
    · have he : a.id ≠ n.id := by rw [hid]; exact ha
      have h2 : (a.id == i) = false := by simp [ha]
      have hm' : dbGet t i = some m := by
        simpa [dbGet, List.find?_cons, h2] using hm
      have hds : dbSet (a :: t) n = a :: dbSet t n := by
        simp [dbSet, he]
      rw [hds]
      simp only [dbGet, List.find?_cons, h2]
      exact ih hm'

theorem dbGet_filter_ne_self (db : DB) (i : Nat) :
    dbGet (db.filter (fun n => n.id != i)) i = none := by
  induction db with
  | nil => rfl
  | cons a t ih =>
    by_cases ha : a.id = i
    · simpa [List.filter_cons, ha] using ih
    · have h1 : (a.id != i) = true := by simpa using ha
      have h2 : (a.id == i) = false := by simpa using ha
      simp only [List.filter_cons, h1, if_true]
      simp only [dbGet, List.find?_cons, h2] at ih ⊢
      exact ih

theorem getNote_dbGet {db : DB} {i u : Nat} {n : Note}
    (h : getNote db i u = some n) : dbGet db i = some n ∧ n.user_id = u := by
  unfold getNote at h
  cases hg : dbGet db i with
  | none => rw [hg] at h; exact absurd h (by simp)
  | some m =>
    rw [hg] at h
    by_cases hu : m.user_id = u
    · simp [hu] at h
      exact ⟨by rw [h], by rw [← h]; exact hu⟩
    · simp [hu] at h

end DbLemmas

/-- One `event_manager.broadcast(user_id, event_name, data)` call made by the
pipeline or a route. -/
structure Event where
  user_id : Nat
  name : String
  data : String
deriving Repr, DecidableEq

/-- Event name `note-status-{id}` used for status broadcasts. -/
def noteStatusName (note_id : Nat) : String :=
  "note-status-" ++ toString note_id

/-- Event name `note-processed-{id}` published once on completion. -/
def noteProcessedName (note_id : Nat) : String :=
  "note-processed-" ++ toString note_id

/-- Observable state threaded through a pipeline run: the notes table, the
ordered log of broadcast calls, the ordered log of committed rows (one entry
per `session.add(note); session.commit()`), and the scheduler's job store. -/
structure SysState where
  db : DB
  events : List Event
  commits : List Note
  jobs : Jobs
deriving Repr, DecidableEq

/-- Persist a row: `session.add(note); session.commit()`. -/
def commitNote (st : SysState) (n : Note) : SysState :=
  { st with db := dbSet st.db n, commits := st.commits ++ [n] }

/-- Record a broadcast call. -/
def broadcastEvent (st : SysState) (uid : Nat) (name data : String) : SysState :=
  { st with events := st.events ++ [⟨uid, name, data⟩] }

/-- Decoded JSON object from the LLM's response text, when `json.loads`
succeeds (OllamaService.generate_summary_and_tag). The outer `Option` on
`tagField`/`timestampField` is key presence; the inner one is JSON null. -/
structure ModelOutput where
  summaryField : Option String
  tagField : Option (Option String)
  timestampField : Option (Option String)
deriving Repr, DecidableEq

/-- Return value of OllamaService.generate_summary_and_tag. -/
structure SummaryResult where
  summary : String
  tag : Option String
  notification_timestamp : Option Int
deriving Repr, DecidableEq

/-- OllamaService.generate_summary_and_tag, from the point where the HTTP
response body is in hand: `decoded = none` is a `json.JSONDecodeError` from
`json.loads(response_text)`, in which case the function logs a warning and
returns defaulted values instead of raising. `parseIso` stands for
`datetime.fromisoformat`, returning `none` on a parse failure. -/
def generate_summary_and_tag (decoded : Option ModelOutput)
    (available_tags : List String) (parseIso : String → Option Int) :
    SummaryResult :=
  match decoded with
  | none => { summary := "", tag := none, notification_timestamp := none }
  | some result =>
    let timestamp : Option String :=
      match result.timestampField with
      | some v => v
      | none => none
    let notification_time : Option Int :=
      match timestamp with
      | some s => if s != "" && s != "null" then parseIso s else none
      | none => none
    let tag0 : Option String :=
      match result.tagField with
      | some v => v
      | none => available_tags.head?
    let tag1 : Option String :=
      match tag0 with
      | some t =>
        if t != "" && !available_tags.isEmpty then
          match available_tags.find? (fun a => a.toLower == t.toLower) with
          | some a => some a
          | none => some t
        else some t
      | none => none
    { summary := match result.summaryField with | some s => s | none => "",
      tag := tag1,
      notification_timestamp := notification_time }

/-- External collaborators of one pipeline run, as `Except`-valued oracles:
`audioExists` is `Path(...).exists()`, `transcribe` the transcription service,
`modelResponse` the LLM call in generate_summary_and_tag (its `Except.error`
is an HTTP/connection exception; its payload is the decode result of the
response text), `embed` the embedding call returning the serialized vector,
`available_tags` the user's configured tags, `parseIso` timestamp parsing
and `now` the current wall-clock time. -/
structure PipelineEnv where
  audioExists : String → Bool
  transcribe : String → Except String String
  modelResponse : String → Except String (Option ModelOutput)
  embed : String → Except String Bytes
  available_tags : List String
  parseIso : String → Option Int
  now : Int

/-- Values produced by `_process_note_ai`: summary, tag, optional
notification timestamp and the serialized embedding. -/
structure AIValues where
  summary : String
  tag : Option String
  notification_timestamp : Option Int
  embedding : Bytes
deriving Repr, DecidableEq

/-- The `_process_note_ai` helper: generate_summary_and_tag on the note's
transcript, then generate_embedding; either call may raise. -/
def processNoteAI (env : PipelineEnv) (note : Note) : Except String AIValues :=
  match env.modelResponse note.raw_transcript with
  | .error e => .error e
  | .ok decoded =>
    let sr := generate_summary_and_tag decoded env.available_tags env.parseIso
    match env.embed note.raw_transcript with
    | .error e => .error e
    | .ok emb =>
      .ok { summary := sr.summary, tag := sr.tag,
            notification_timestamp := sr.notification_timestamp,
            embedding := emb }

/-- Replace-existing insertion into the scheduler's job store, as
`scheduler.add_job(..., id=f"note_notification_{note.id}",
replace_existing=True)`. -/
def addJobReplace (jobs : Jobs) (note_id : Nat) (ts : Int) : Jobs :=
  (note_id, ts) :: jobs.filter (fun p => p.1 != note_id)

/-- The `_schedule_notification_if_needed` helper: schedule a one-shot job
at the note's notification timestamp only when that timestamp is set and
strictly after the current time. -/
def scheduleIfNeeded (now : Int) (note : Note) (jobs : Jobs) : Jobs :=
  match note.notification_timestamp with
  | some ts => if now < ts then addJobReplace jobs note.id ts else jobs
  | none => jobs

/-- Transcription phase of process_new_note: transcribe when a (nonempty)
audio path points at an existing file, otherwise require a nonempty
transcript; the `Except.error` is the raised exception's message. -/
def transcribeStep (env : PipelineEnv) (note : Note) : Except String Note :=
  match note.audio_path with
  | some p =>
    if p != "" && env.audioExists p then
      match env.transcribe p with
      | .ok t => .ok { note with raw_transcript := t }
      | .error e => .error e
    else if note.raw_transcript == "" then
      .error "No audio file or transcript available"
    else .ok note
  | none =>
    if note.raw_transcript == "" then
      .error "No audio file or transcript available"
    else .ok note

/-- Shared completion tail of both pipeline tasks: write summary, tag,
notification timestamp and embedding, mark completed clearing
error_message, stamp updated_at, commit, evaluate the notification
schedule, then broadcast `note-status` and `note-processed`. -/
def completeNote (env : PipelineEnv) (st : SysState) (note : Note)
    (ai : AIValues) : SysState :=
  let n := { note with
    summary := some ai.summary, tag := ai.tag,
    notification_timestamp := ai.notification_timestamp,
    embedding := some ai.embedding,
    processing_status := "completed", error_message := none,
    updated_at := env.now }
  let st1 := commitNote st n
  let st2 := { st1 with jobs := scheduleIfNeeded env.now n st1.jobs }
  let st3 := broadcastEvent st2 n.user_id (noteStatusName n.id) "completed"
  broadcastEvent st3 n.user_id (noteProcessedName n.id) "completed"

/-- Shared exception handler of both pipeline tasks: mark failed with the
exception message, stamp updated_at, commit and broadcast the failed
status. -/
def failNote (env : PipelineEnv) (st : SysState) (note : Note)
    (msg : String) : SysState :=
  let n := { note with
    processing_status := "failed",
    error_message := some msg, updated_at := env.now }
  let st1 := commitNote st n
  broadcastEvent st1 n.user_id (noteStatusName n.id) "failed"

/-- Background task process_new_note: look the note up (silently returning
when it is gone), commit and broadcast `transcribing`, run the transcription
phase, commit and broadcast `processing`, run enrichment, then complete or
fail. -/
def process_new_note (env : PipelineEnv) (st : SysState) (note_id : Nat) :
    SysState :=
  match dbGet st.db note_id with
  | none => st
  | some note0 =>
    let n1 := { note0 with processing_status := "transcribing" }
    let st1 := broadcastEvent (commitNote st n1) n1.user_id
      (noteStatusName n1.id) "transcribing"
    match transcribeStep env n1 with
    | .error e => failNote env st1 n1 e
    | .ok n2 =>
      let n3 := { n2 with processing_status := "processing" }
      let st2 := broadcastEvent (commitNote st1 n3) n3.user_id
        (noteStatusName n3.id) "processing"
      match processNoteAI env n3 with
      | .error e => failNote env st2 n3 e
      | .ok ai => completeNote env st2 n3 ai

/-- Background task reprocess_note: look the note up (silently returning
when it is gone); with an empty transcript commit a failed status (without
broadcasting or stamping updated_at) and stop; otherwise commit and
broadcast `processing`, run enrichment, then complete or fail. -/
def reprocess_note (env : PipelineEnv) (st : SysState) (note_id : Nat) :
    SysState :=
  match dbGet st.db note_id with
  | none => st
  | some note0 =>
    if note0.raw_transcript == "" then
      commitNote st { note0 with
        processing_status := "failed",
        error_message := some "No transcript available" }
    else
      let n1 := { note0 with processing_status := "processing" }
      let st1 := broadcastEvent (commitNote st n1) n1.user_id
        (noteStatusName n1.id) "processing"
      match processNoteAI env n1 with
      | .error e => failNote env st1 n1 e
      | .ok ai => completeNote env st1 n1 ai

/-- Route retry_failed_note: 404 when the note is missing or foreign, 400
unless its status is `failed`; otherwise commit status `processing` with
error_message cleared and broadcast it (the queued reprocess_note task runs
after the response). `Except.error` carries the HTTP error detail. -/
def retry_failed_note (st : SysState) (note_id user_id : Nat) :
    Except String SysState :=
  match getNote st.db note_id user_id with
  | none => .error "Note not found"
  | some note =>
    if note.processing_status != "failed" then
      .error "Only failed notes can be retried"
    else
      let n1 := { note with
        processing_status := "processing", error_message := none }
      let st1 := commitNote st n1
      .ok (broadcastEvent st1 user_id (noteStatusName note.id) "processing")

/-- Full retry path: the route commit followed by the background
reprocess_note task; when the route rejects, nothing runs. -/
def retryRun (env : PipelineEnv) (st : SysState) (note_id user_id : Nat) :
    SysState :=
  match retry_failed_note st note_id user_id with
  | .ok st1 => reprocess_note env st1 note_id
  | .error _ => st

/-- Home Assistant connection fields of a user's settings row, as consulted
by send_note_notification. -/
structure HAConfig where
  url : Option String
  token : Option String
  device : Option String
deriving Repr, DecidableEq

/-- Python truthiness of an optional string: `None` and the empty string
are falsy. -/
def optTruthy (s : Option String) : Bool :=
  match s with
  | some v => v != ""
  | none => false

/-- The `all([url, token, device])` guard of send_note_notification. -/
def haConfigured (c : HAConfig) : Bool :=
  optTruthy c.url && optTruthy c.token && optTruthy c.device

/-- Notification title: `Scribe: {tag}` for a truthy tag, else the default. -/
def notifTitle (note : Note) : String :=
  if optTruthy note.tag then
    "Scribe: " ++ (match note.tag with | some t => t | none => "")
  else "Scribe Note Reminder"

/-- Notification message: summary, else the transcript truncated to 200
characters, else the fallback text. -/
def notifMessage (note : Note) : String :=
  let s := match note.summary with | some v => v | none => ""
  if s != "" then s
  else
    let t := note.raw_transcript
    let mid := if t.length > 200 then t.take 200 ++ "..." else t
    if mid != "" then mid else "New note reminder"

/-- A notification actually handed to Home Assistant. -/
structure SentNotification where
  note_id : Nat
  title : String
  message : String
deriving Repr, DecidableEq

/-- Background task send_note_notification: the scheduler callback. With no
note row, or no user settings, or an unconfigured Home Assistant it returns
delivering nothing; otherwise it sends one notification. `settingsOf` maps a
user id to that user's settings row. -/
def send_note_notification (db : DB) (settingsOf : Nat → Option HAConfig)
    (note_id : Nat) : List SentNotification :=
  match dbGet db note_id with
  | none => []
  | some note =>
    match settingsOf note.user_id with
    | none => []
    | some cfg =>
      if haConfigured cfg then
        [{ note_id := note_id, title := notifTitle note,
           message := notifMessage note }]
      else []

/-- EventManager state (`app/utils/events.py`): for each registered user id,
the per-connection queues of pending SSE frames. The code deletes a user's
entry when its last queue unsubscribes, so no empty entry lingers. -/
abbrev EMState := List (Nat × List (List String))

/-- Membership test `user_id in self.user_queues`, returning the queues. -/
def emLookup (st : EMState) (uid : Nat) : Option (List (List String)) :=
  match st.find? (fun p => p.1 == uid) with
  | some p => some p.2
  | none => none

/-- SSE frame built by EventManager.broadcast. -/
def sseMessage (name data : String) : String :=
  "event: " ++ name ++ "\ndata: " ++ data ++ "\n\n"

/-- EventManager.broadcast: when the user id has registered queues, put the
frame on each of them; otherwise a silent no-op. -/
def emBroadcast (st : EMState) (uid : Nat) (name data : String) : EMState :=
  match emLookup st uid with
  | none => st
  | some _ =>
    st.map (fun p =>
      if p.1 == uid then
        (p.1, p.2.map (fun q => q ++ [sseMessage name data]))
      else p)

/-- EventManager.subscribe: register a fresh empty queue for the user and
yield the initial ping frame before any queued data. -/
def emSubscribe (st : EMState) (uid : Nat) : EMState × String :=
  let st1 := match emLookup st uid with
    | some _ => st.map (fun p => if p.1 == uid then (p.1, p.2 ++ [[]]) else p)
    | none => st ++ [(uid, [[]])]
  (st1, ": ping\n\n")

/-- Distance key of a row for the `vec_distance_cosine(embedding, :query_vec)`
column: the metric itself is sqlite-vec's, kept abstract as `dist`. -/
def distKey (dist : Bytes → Bytes → Int) (q : Bytes) (n : Note) : Int :=
  dist (match n.embedding with | some e => e | none => []) q

/-- Stored byte length of a row's embedding, as SQL `length(embedding)`. -/
def embLen (n : Note) : Nat :=
  match n.embedding with | some e => e.length | none => 0

/-- The similarity SQL of get_similar_notes: rows of the same owner, not
archived, with a non-null embedding of the query vector's byte length and a
different id, ordered by ascending cosine distance, limited. -/
def similarRows (dist : Bytes → Bytes → Int) (db : DB) (user_id note_id : Nat)
    (q : Bytes) (limit : Nat) : List Note :=
  let rows := db.filter (fun n =>
    n.user_id == user_id && n.archived == false && n.embedding.isSome &&
      n.id != note_id && embLen n == q.length)
  (rows.insertionSort (fun a b => distKey dist q a ≤ distKey dist q b)).take
    limit

/-- NoteService.get_similar_notes: fetch the source note (ownership
checked; `none` models `NotFoundError`), return `[]` when it has no
embedding, else run the similarity SQL with the note's own embedding as the
query vector. -/
def get_similar_notes (dist : Bytes → Bytes → Int) (db : DB)
    (note_id user_id limit : Nat) : Option (List Note) :=
  match getNote db note_id user_id with
  | none => none
  | some note =>
    match note.embedding with
    | none => some []
    | some q => some (similarRows dist db user_id note_id q limit)

/-- Note reaching `completed` through the enrichment tail of a pipeline
run, in terms of the run's inputs. -/
def pipelineResultNote (env : PipelineEnv) (note : Note)
    (md : Option ModelOutput) (emb : Bytes) : Note :=
  let sr := generate_summary_and_tag md env.available_tags env.parseIso
  { note with
    processing_status := "completed", error_message := none,
    summary := some sr.summary, tag := sr.tag,
    notification_timestamp := sr.notification_timestamp,
    embedding := some emb, updated_at := env.now }

section HelperLemmas

theorem transcribeStep_ok_fields {env : PipelineEnv} {n m : Note}
    (h : transcribeStep env n = Except.ok m) :
    m.id = n.id ∧ m.user_id = n.user_id ∧
    m.processing_status = n.processing_status ∧
    m.error_message = n.error_message := by
  unfold transcribeStep at h
  cases hap : n.audio_path with
  | none =>
    rw [hap] at h
    by_cases ht : (n.raw_transcript == "") = true
    · rw [if_pos ht] at h
      exact absurd h (by simp)
    · rw [if_neg ht] at h
      injection h with h
      subst h
      exact ⟨rfl, rfl, rfl, rfl⟩
  | some p =>
    rw [hap] at h
    dsimp only at h
    by_cases hex : ((p != "") && env.audioExists p) = true
    · rw [if_pos hex] at h
      cases htr : env.transcribe p with
      | ok t =>
        rw [htr] at h
        injection h with h
        subst h
        exact ⟨rfl, rfl, rfl, rfl⟩
      | error e =>
        rw [htr] at h
        exact absurd h (by simp)
    · rw [if_neg hex] at h
      by_cases ht : (n.raw_transcript == "") = true
      · rw [if_pos ht] at h
        exact absurd h (by simp)
      · rw [if_neg ht] at h
        injection h with h
        subst h
        exact ⟨rfl, rfl, rfl, rfl⟩

theorem statusName_ne_processedName (i : Nat) :
    noteStatusName i ≠ noteProcessedName i := by
  intro h
  have hl := congrArg String.length h
  rw [noteStatusName, noteProcessedName, String.length_append,
    String.length_append] at hl
  have h1 : ("note-status-" : String).length = 12 := rfl
  have h2 : ("note-processed-" : String).length = 15 := rfl
  rw [h1, h2] at hl
  omega

theorem emLookup_append_single (st : EMState) (uid : Nat)
    (qs : List (List String)) (h : emLookup st uid = none) :
    emLookup (st ++ [(uid, qs)]) uid = some qs := by
  induction st with
  | nil => simp [emLookup]
  | cons a t ih =>
    by_cases hp : a.1 = uid
    · exfalso
      simp [emLookup, List.find?_cons, hp] at h
    · have hb : (a.1 == uid) = false := by simpa using hp
      have h' : emLookup t uid = none := by
        simpa [emLookup, List.find?_cons, hb] using h
      simpa [emLookup, List.find?_cons, hb] using ih h'

end HelperLemmas

section Fixtures

/-- Baseline freshly created text note, as NoteService.create_note builds
it. -/
def baseNote : Note :=
  { id := 1, user_id := 1, raw_transcript := "buy milk",
    summary := none, tag := none, notification_timestamp := none,
    audio_path := none, embedding := none,
    processing_status := "pending", error_message := none,
    archived := false, created_at := 0, updated_at := 0 }

/-- Environment whose model and embedding calls succeed with parseable
output. -/
def okEnv : PipelineEnv :=
  { audioExists := fun _ => false,
    transcribe := fun _ => Except.error "transcription unavailable",
    modelResponse := fun _ => Except.ok (some
      { summaryField := some "milk run", tagField := some (some "todo"),
        timestampField := some none }),
    embed := fun _ => Except.ok [1, 2, 3, 4],
    available_tags := ["todo", "note", "misc"],
    parseIso := fun _ => none,
    now := 100 }

/-- Environment whose model call returns HTTP 200 with unparseable JSON. -/
def badJsonEnv : PipelineEnv :=
  { okEnv with modelResponse := fun _ => Except.ok none }

/-- Fresh single-note state for pipeline runs. -/
def st0 : SysState := { db := [baseNote], events := [], commits := [], jobs := [] }

/-- Empty system state. -/
def emptySt : SysState := { db := [], events := [], commits := [], jobs := [] }

end Fixtures

section PipelineEval

theorem process_new_note_enrich_ok (env : PipelineEnv) (st : SysState)
    (note_id : Nat) (note : Note) (md : Option ModelOutput) (emb : Bytes)
    (hget : dbGet st.db note_id = some note)
    (haudio : note.audio_path = none)
    (htr : ¬ note.raw_transcript = "")
    (hmodel : env.modelResponse note.raw_transcript = Except.ok md)
    (hembed : env.embed note.raw_transcript = Except.ok emb) :
    process_new_note env st note_id =
      { db := dbSet (dbSet (dbSet st.db
            { note with processing_status := "transcribing" })
            { note with processing_status := "processing" })
            (pipelineResultNote env note md emb),
        events := st.events ++
          [⟨note.user_id, noteStatusName note.id, "transcribing"⟩,
           ⟨note.user_id, noteStatusName note.id, "processing"⟩,
           ⟨note.user_id, noteStatusName note.id, "completed"⟩,
           ⟨note.user_id, noteProcessedName note.id, "completed"⟩],
        commits := st.commits ++
          [{ note with processing_status := "transcribing" },
           { note with processing_status := "processing" },
           pipelineResultNote env note md emb],
        jobs := scheduleIfNeeded env.now (pipelineResultNote env note md emb)
          st.jobs } := by
  have hb : (note.raw_transcript == "") = false := by
    simpa using htr
  have htrs : transcribeStep env { note with processing_status := "transcribing" } =
      Except.ok { note with processing_status := "transcribing" } := by
    unfold transcribeStep
    dsimp only
    rw [haudio]
    dsimp only
    rw [hb]
    rfl
  have hai : processNoteAI env { note with processing_status := "processing" } =
      Except.ok
        { summary := (generate_summary_and_tag md env.available_tags env.parseIso).summary,
          tag := (generate_summary_and_tag md env.available_tags env.parseIso).tag,
          notification_timestamp :=
            (generate_summary_and_tag md env.available_tags env.parseIso).notification_timestamp,
          embedding := emb } := by
    unfold processNoteAI
    dsimp only
    rw [hmodel, hembed]
  unfold process_new_note
  rw [hget]
  dsimp only [commitNote, broadcastEvent]
  rw [htrs]
  dsimp only [commitNote, broadcastEvent]
  rw [hai]
  unfold completeNote pipelineResultNote
  dsimp only [commitNote, broadcastEvent]
  simp [List.append_assoc]

theorem process_new_note_enrich_ok_dbGet (env : PipelineEnv) (st : SysState)
    (note_id : Nat) (note : Note) (md : Option ModelOutput) (emb : Bytes)
    (hget : dbGet st.db note_id = some note)
    (haudio : note.audio_path = none)
    (htr : ¬ note.raw_transcript = "")
    (hmodel : env.modelResponse note.raw_transcript = Except.ok md)
    (hembed : env.embed note.raw_transcript = Except.ok emb) :
    dbGet (process_new_note env st note_id).db note_id =
      some (pipelineResultNote env note md emb) := by
  have hid : note.id = note_id := dbGet_id_eq hget
  rw [process_new_note_enrich_ok env st note_id note md emb hget haudio htr
    hmodel hembed]
  have h1 : dbGet (dbSet st.db { note with processing_status := "transcribing" })
      note_id = some { note with processing_status := "transcribing" } :=
    dbGet_dbSet_self _ hget hid
  have h2 : dbGet (dbSet (dbSet st.db
      { note with processing_status := "transcribing" })
      { note with processing_status := "processing" }) note_id =
      some { note with processing_status := "processing" } :=
    dbGet_dbSet_self _ h1 hid
  exact dbGet_dbSet_self _ h2 hid

end PipelineEval

/-- C10: for every note id with no corresponding note row, process_new_note
and reprocess_note return normally: the system state (notes table, event
log, commit log, job store) is unchanged, so no stored note is modified
and no event is broadcast. -/
theorem missing_note_tasks_noop (env : PipelineEnv) (st : SysState)
    (note_id : Nat) (h : dbGet st.db note_id = none) :
    process_new_note env st note_id = st ∧
    reprocess_note env st note_id = st := by
  constructor
  · unfold process_new_note
    rw [h]
  · unfold reprocess_note
    rw [h]

/-- C10 witness: both tasks on an empty table are no-ops. -/
theorem missing_note_tasks_noop_witness :
    process_new_note okEnv emptySt 7 = emptySt ∧
    reprocess_note okEnv emptySt 7 = emptySt :=
  missing_note_tasks_noop okEnv emptySt 7 rfl

/-- C9: EventManager.broadcast to an owner with zero active subscribers
leaves the registry untouched (the event is not retained anywhere, and the
function is total, so nothing is raised), and a subscriber connecting
afterwards starts with a single fresh empty queue, so it never receives
that event. -/
theorem broadcast_no_subscribers (st : EMState) (uid : Nat)
    (name data : String) (h : emLookup st uid = none) :
    emBroadcast st uid name data = st ∧
    emLookup (emSubscribe (emBroadcast st uid name data) uid).1 uid =
      some [[]] := by
  have hb : emBroadcast st uid name data = st := by
    unfold emBroadcast
    rw [h]
  refine ⟨hb, ?_⟩
  rw [hb]
  unfold emSubscribe
  rw [h]
  exact emLookup_append_single st uid [[]] h

/-- C9 witness: broadcasting to owner 1 while only owner 2 is subscribed,
then subscribing as owner 1. -/
theorem broadcast_no_subscribers_witness :
    emBroadcast [(2, [[]])] 1 "note-created" "1" = [(2, [[]])] ∧
    emLookup (emSubscribe (emBroadcast [(2, [[]])] 1 "note-created" "1") 1).1 1 =
      some [[]] :=
  broadcast_no_subscribers [(2, [[]])] 1 "note-created" "1" rfl

/-- C8: _schedule_notification_if_needed schedules a job exactly when the
note's notification timestamp is set and strictly later than the evaluation
time: with no timestamp or one at/before now the job store is unchanged (in
particular nothing fires immediately), and with a strictly future timestamp
the note's job is (re)placed at exactly that time. -/
theorem schedule_strictly_future (now : Int) (note : Note) (jobs : Jobs) :
    (note.notification_timestamp = none →
      scheduleIfNeeded now note jobs = jobs) ∧
    (∀ ts, note.notification_timestamp = some ts → ts ≤ now →
      scheduleIfNeeded now note jobs = jobs) ∧
    (∀ ts, note.notification_timestamp = some ts → now < ts →
      (note.id, ts) ∈ scheduleIfNeeded now note jobs ∧
      ∀ p ∈ scheduleIfNeeded now note jobs, p.1 = note.id → p.2 = ts) := by
  refine ⟨?_, ?_, ?_⟩
  · intro h
    unfold scheduleIfNeeded
    rw [h]
  · intro ts h hle
    unfold scheduleIfNeeded
    rw [h]
    simp [not_lt.mpr hle]
  · intro ts h hlt
    unfold scheduleIfNeeded
    rw [h]
    dsimp only
    rw [if_pos hlt]
    constructor
    · simp [addJobReplace]
    · intro p hp hpid
      simp only [addJobReplace, List.mem_cons, List.mem_filter] at hp
      rcases hp with h1 | ⟨_, h2⟩
      · rw [h1]
      · exfalso
        simp [hpid] at h2

/-- C8 witness: timestamp 50 at time 10 schedules (replacing the stale job
for the same note), while timestamp 5 at time 10 leaves the store alone. -/
theorem schedule_strictly_future_witness :
    ((1 : Nat), (50 : Int)) ∈
      scheduleIfNeeded 10 { baseNote with notification_timestamp := some 50 }
        [(1, 20)] ∧
    scheduleIfNeeded 10 { baseNote with notification_timestamp := some 5 }
      [(1, 20)] = [(1, 20)] :=
  ⟨((schedule_strictly_future 10
      { baseNote with notification_timestamp := some 50 } [(1, 20)]).2.2 50
      rfl (by decide)).1,
   (schedule_strictly_future 10
      { baseNote with notification_timestamp := some 5 } [(1, 20)]).2.1 5
      rfl (by decide)⟩

/-- C6: update_note called with a new transcript (and no summary/tag
arguments) commits the note with status `pending`, `updated_at` stamped to
the commit time and the new transcript, while summary, tag, embedding and
notification_timestamp keep their previous, now stale, values. -/
theorem transcript_edit_frame (db : DB) (now : Int) (note_id user_id : Nat)
    (t : String) (note : Note) (res : DB × Note)
    (hget : getNote db note_id user_id = some note)
    (hupd : update_note db now note_id user_id (some t) none none = some res) :
    res.2.processing_status = "pending" ∧ res.2.updated_at = now ∧
    res.2.raw_transcript = t ∧
    res.2.summary = note.summary ∧ res.2.tag = note.tag ∧
    res.2.embedding = note.embedding ∧
    res.2.notification_timestamp = note.notification_timestamp ∧
    res.1 = dbSet db res.2 := by
  unfold update_note at hupd
  rw [hget] at hupd
  dsimp only at hupd
  injection hupd with hupd
  subst hupd
  exact ⟨rfl, rfl, rfl, rfl, rfl, rfl, rfl, rfl⟩

/-- Completed note fixture for the transcript-edit claims. -/
def exNote6 : Note :=
  { baseNote with
    processing_status := "completed", summary := some "milk run",
    tag := some "todo", embedding := some [1, 2, 3, 4],
    notification_timestamp := some 42 }

/-- Result row of editing exNote6's transcript at time 100. -/
def exNote6After : Note :=
  { exNote6 with
    raw_transcript := "buy milk and eggs",
    processing_status := "pending", updated_at := 100 }

/-- C6 witness: editing the completed fixture note's transcript. -/
theorem transcript_edit_frame_witness :
    (([exNote6After], exNote6After) : DB × Note).2.processing_status = "pending" ∧
    (([exNote6After], exNote6After) : DB × Note).2.updated_at = 100 ∧
    (([exNote6After], exNote6After) : DB × Note).2.raw_transcript = "buy milk and eggs" ∧
    (([exNote6After], exNote6After) : DB × Note).2.summary = exNote6.summary ∧
    (([exNote6After], exNote6After) : DB × Note).2.tag = exNote6.tag ∧
    (([exNote6After], exNote6After) : DB × Note).2.embedding = exNote6.embedding ∧
    (([exNote6After], exNote6After) : DB × Note).2.notification_timestamp =
      exNote6.notification_timestamp ∧
    (([exNote6After], exNote6After) : DB × Note).1 =
      dbSet [exNote6] (([exNote6After], exNote6After) : DB × Note).2 :=
  transcript_edit_frame [exNote6] 100 1 1 "buy milk and eggs" exNote6
    ([exNote6After], exNote6After) rfl (by rfl)

/-- Failed note fixture carrying an error message. -/
def exNote1 : Note :=
  { baseNote with processing_status := "failed", error_message := some "boom" }

/-- C1 counterexample: editing the transcript of a failed note commits a
row with status `pending` whose error_message is still `some "boom"`, so
after this committing operation error_message is non-null while the status
is not `failed`, and the reset to `pending` did not clear it. -/
theorem error_message_edit_cex :
    (update_note [exNote1] 100 1 1 (some "edited") none none).map
      (fun r => (r.2.processing_status, r.2.error_message)) =
      some ("pending", some "boom") := by
  rfl

/-- C2 counterexample: processing the freshly created text note with
transcript "buy milk" (no audio source) both commits and broadcasts the
`transcribing` status before moving on, so the run does not go straight
from `pending` to `processing`. -/
theorem text_note_transcribing_cex :
    ((process_new_note okEnv st0 1).commits.map Note.processing_status =
      ["transcribing", "processing", "completed"]) ∧
    (process_new_note okEnv st0 1).events.any
      (fun e => e.name == noteStatusName 1 && e.data == "transcribing") = true := by
  constructor
  · rfl
  · rfl

/-- C4 counterexample: with the model returning HTTP 200 but unparseable
JSON, the pipeline run completes the text note with defaulted summary ""
and no tag instead of failing it: no EnrichmentError is surfaced and no
error message is recorded. -/
theorem unparseable_output_cex :
    (dbGet (process_new_note badJsonEnv st0 1).db 1).map
      (fun n => (n.processing_status, n.error_message, n.summary, n.tag)) =
      some ("completed", none, some "", none) := by
  rfl

/-- Failed note fixture with an absent transcript. -/
def exNote5 : Note :=
  { baseNote with
    raw_transcript := "", processing_status := "failed",
    error_message := some "boom" }

/-- State holding only the failed transcript-less note. -/
def st5 : SysState := { db := [exNote5], events := [], commits := [], jobs := [] }

/-- C5 counterexample: retrying the failed note with an absent transcript
commits `processing` and then `failed` ("No transcript available"); the
note is never transitioned to `transcribing`, and the retried run does not
succeed. -/
theorem retry_transcript_absent_cex :
    ((retryRun okEnv st5 1 1).commits.map Note.processing_status =
      ["processing", "failed"]) ∧
    (dbGet (retryRun okEnv st5 1 1).db 1).map
      (fun n => (n.processing_status, n.error_message)) =
      some ("failed", some "No transcript available") := by
  constructor
  · rfl
  · rfl

/-- Completed note fixture with an embedding and a pending notification. -/
def exNote7 : Note :=
  { baseNote with
    processing_status := "completed",
    embedding := some [1, 2, 3, 4], notification_timestamp := some 500 }

/-- C7 counterexample: deleting the note whose notification job is pending
in the scheduler leaves that job in the job store untouched — the delete
path never cancels it. -/
theorem delete_no_cancel_cex :
    (delete_note [exNote7] [(1, 500)] 1 1).map (fun r => r.2) =
      some [(1, 500)] := by
  rfl

/-- C7 amended: deleting a note removes its row — and with it the stored
embedding, i.e. the vector entry — but leaves the scheduler's job store
untouched; when the still-pending job later fires, send_note_notification
finds no row for the id and returns without delivering anything, so no
notification is sent for the deleted note. -/
theorem delete_removes_row_amended (db : DB) (jobs : Jobs)
    (note_id user_id : Nat) (note : Note)
    (settingsOf : Nat → Option HAConfig)
    (hget : getNote db note_id user_id = some note) :
    delete_note db jobs note_id user_id =
      some (db.filter (fun n => n.id != note_id), jobs) ∧
    dbGet (db.filter (fun n => n.id != note_id)) note_id = none ∧
    send_note_notification (db.filter (fun n => n.id != note_id)) settingsOf
      note_id = [] := by
  refine ⟨?_, dbGet_filter_ne_self db note_id, ?_⟩
  · unfold delete_note
    rw [hget]
  · unfold send_note_notification
    rw [dbGet_filter_ne_self db note_id]

/-- C7 witness: deleting the fixture note with its job pending. -/
theorem delete_removes_row_amended_witness :
    delete_note [exNote7] [(1, 500)] 1 1 =
      some (([exNote7] : DB).filter (fun n => n.id != 1), [(1, 500)]) ∧
    dbGet (([exNote7] : DB).filter (fun n => n.id != 1)) 1 = none ∧
    send_note_notification (([exNote7] : DB).filter (fun n => n.id != 1))
      (fun _ => none) 1 = [] :=
  delete_removes_row_amended [exNote7] [(1, 500)] 1 1 exNote7
    (fun _ => none) rfl

/-- C4 amended: when the model's output is unparseable JSON,
generate_summary_and_tag raises nothing and returns the defaults (empty
summary, no tag, no notification timestamp), and the pipeline run completes
the note with exactly those defaulted values and the fresh embedding — it
does not enter `failed` and records no error message. -/
theorem unparseable_output_defaults_amended (tags : List String)
    (parseIso : String → Option Int) (env : PipelineEnv) (st : SysState)
    (note_id : Nat) (note : Note) (emb : Bytes)
    (hget : dbGet st.db note_id = some note)
    (haudio : note.audio_path = none)
    (htr : ¬ note.raw_transcript = "")
    (hmodel : env.modelResponse note.raw_transcript = Except.ok none)
    (hembed : env.embed note.raw_transcript = Except.ok emb) :
    generate_summary_and_tag none tags parseIso =
      { summary := "", tag := none, notification_timestamp := none } ∧
    dbGet (process_new_note env st note_id).db note_id = some
      { note with
        processing_status := "completed", error_message := none,
        summary := some "", tag := none, notification_timestamp := none,
        embedding := some emb, updated_at := env.now } := by
  refine ⟨rfl, ?_⟩
  exact process_new_note_enrich_ok_dbGet env st note_id note none emb hget
    haudio htr hmodel hembed

/-- C4 witness: the badJsonEnv run over the fresh text note. -/
theorem unparseable_output_defaults_witness :
    generate_summary_and_tag none ["todo"] (fun _ => none) =
      { summary := "", tag := none, notification_timestamp := none } ∧
    dbGet (process_new_note badJsonEnv st0 1).db 1 = some
      { baseNote with
        processing_status := "completed", error_message := none,
        summary := some "", tag := none, notification_timestamp := none,
        embedding := some [1, 2, 3, 4], updated_at := badJsonEnv.now } :=
  unparseable_output_defaults_amended ["todo"] (fun _ => none) badJsonEnv st0
    1 baseNote [1, 2, 3, 4] rfl rfl (by decide) rfl rfl

/-- C2 amended: a pipeline run over a note with a nonempty transcript and
no audio source commits the status sequence transcribing → processing →
completed (the `transcribing` status is persisted and broadcast even though
the transcription call itself is skipped), broadcasts exactly those status
events in order, publishes exactly one note-processed event, and leaves the
note completed. -/
theorem text_note_pipeline_amended (env : PipelineEnv) (st : SysState)
    (note_id : Nat) (note : Note) (md : Option ModelOutput) (emb : Bytes)
    (hget : dbGet st.db note_id = some note)
    (haudio : note.audio_path = none)
    (htr : ¬ note.raw_transcript = "")
    (hmodel : env.modelResponse note.raw_transcript = Except.ok md)
    (hembed : env.embed note.raw_transcript = Except.ok emb) :
    ((process_new_note env st note_id).commits.drop st.commits.length).map
        Note.processing_status = ["transcribing", "processing", "completed"] ∧
    (process_new_note env st note_id).events.drop st.events.length =
      [⟨note.user_id, noteStatusName note.id, "transcribing"⟩,
       ⟨note.user_id, noteStatusName note.id, "processing"⟩,
       ⟨note.user_id, noteStatusName note.id, "completed"⟩,
       ⟨note.user_id, noteProcessedName note.id, "completed"⟩] ∧
    (((process_new_note env st note_id).events.drop st.events.length).filter
        (fun e => e.name == noteProcessedName note.id)).length = 1 ∧
    dbGet (process_new_note env st note_id).db note_id =
      some (pipelineResultNote env note md emb) := by
  have hrun := process_new_note_enrich_ok env st note_id note md emb hget
    haudio htr hmodel hembed
  have hdb := process_new_note_enrich_ok_dbGet env st note_id note md emb hget
    haudio htr hmodel hembed
  rw [hrun]
  dsimp only
  rw [List.drop_left, List.drop_left]
  have hne : (noteStatusName note.id == noteProcessedName note.id) = false := by
    simpa using statusName_ne_processedName note.id
  refine ⟨rfl, rfl, ?_, ?_⟩
  · simp [List.filter_cons, hne]
  · rw [hrun] at hdb
    exact hdb

/-- C2 witness: the "buy milk" text note run under okEnv. -/
theorem text_note_pipeline_witness :
    ((process_new_note okEnv st0 1).commits.drop st0.commits.length).map
        Note.processing_status = ["transcribing", "processing", "completed"] ∧
    (process_new_note okEnv st0 1).events.drop st0.events.length =
      [⟨baseNote.user_id, noteStatusName baseNote.id, "transcribing"⟩,
       ⟨baseNote.user_id, noteStatusName baseNote.id, "processing"⟩,
       ⟨baseNote.user_id, noteStatusName baseNote.id, "completed"⟩,
       ⟨baseNote.user_id, noteProcessedName baseNote.id, "completed"⟩] ∧
    (((process_new_note okEnv st0 1).events.drop st0.events.length).filter
        (fun e => e.name == noteProcessedName baseNote.id)).length = 1 ∧
    dbGet (process_new_note okEnv st0 1).db 1 =
      some (pipelineResultNote okEnv baseNote
        (some { summaryField := some "milk run", tagField := some (some "todo"),
                timestampField := some none }) [1, 2, 3, 4]) :=
  text_note_pipeline_amended okEnv st0 1 baseNote
    (some { summaryField := some "milk run", tagField := some (some "todo"),
            timestampField := some none }) [1, 2, 3, 4] rfl rfl (by decide)
    rfl rfl

/-- C5 amended: retrying a failed note always succeeds at the route level
and commits status `processing` with error_message cleared — never
`transcribing`, even when the transcript is absent; in the absent-transcript
case the subsequent rerun immediately commits `failed` with error "No
transcript available", so only `processing` and `failed` are ever
committed. -/
theorem retry_clears_error_amended (env : PipelineEnv) (st : SysState)
    (note_id user_id : Nat) (note : Note)
    (hget : getNote st.db note_id user_id = some note)
    (hfail : note.processing_status = "failed") :
    (match retry_failed_note st note_id user_id with
     | Except.ok st1 =>
        dbGet st1.db note_id = some { note with
          processing_status := "processing", error_message := none } ∧
        st1.events.drop st.events.length =
          [⟨user_id, noteStatusName note.id, "processing"⟩]
     | Except.error _ => False) ∧
    (note.raw_transcript = "" →
      (dbGet (retryRun env st note_id user_id).db note_id).map
          (fun n => (n.processing_status, n.error_message)) =
        some ("failed", some "No transcript available") ∧
      ((retryRun env st note_id user_id).commits.drop st.commits.length).map
          Note.processing_status = ["processing", "failed"]) := by
  obtain ⟨hdb, huid⟩ := getNote_dbGet hget
  have hid : note.id = note_id := dbGet_id_eq hdb
  have hcond : (note.processing_status != "failed") = false := by
    simp [hfail]
  have hret : retry_failed_note st note_id user_id = Except.ok
      (broadcastEvent (commitNote st { note with
        processing_status := "processing", error_message := none })
        user_id (noteStatusName note.id) "processing") := by
    unfold retry_failed_note
    rw [hget]
    dsimp only
    rw [hcond]
    rfl
  have hdb1 : dbGet (dbSet st.db { note with
      processing_status := "processing", error_message := none }) note_id =
      some { note with
        processing_status := "processing", error_message := none } :=
    dbGet_dbSet_self _ hdb hid
  constructor
  · rw [hret]
    dsimp only [broadcastEvent, commitNote]
    exact ⟨hdb1, List.drop_left _ _⟩
  · intro htr
    have hb : (note.raw_transcript == "") = true := by simp [htr]
    have hrr : retryRun env st note_id user_id =
        commitNote (broadcastEvent (commitNote st { note with
            processing_status := "processing", error_message := none })
          user_id (noteStatusName note.id) "processing")
          { note with
            processing_status := "failed",
            error_message := some "No transcript available" } := by
      unfold retryRun
      rw [hret]
      unfold reprocess_note
      dsimp only [broadcastEvent, commitNote]
      rw [hdb1]
      dsimp only
      rw [hb]
      rfl
    rw [hrr]
    dsimp only [broadcastEvent, commitNote]
    constructor
    · rw [dbGet_dbSet_self { note with
          processing_status := "failed",
          error_message := some "No transcript available" } hdb1 hid]
      rfl
    · rw [List.append_assoc, List.drop_left]
      rfl

/-- C5 witness: retrying the failed transcript-less fixture note. -/
theorem retry_clears_error_witness :
    (match retry_failed_note st5 1 1 with
     | Except.ok st1 =>
        dbGet st1.db 1 = some { exNote5 with
          processing_status := "processing", error_message := none } ∧
        st1.events.drop st5.events.length =
          [⟨1, noteStatusName exNote5.id, "processing"⟩]
     | Except.error _ => False) ∧
    (exNote5.raw_transcript = "" →
      (dbGet (retryRun okEnv st5 1 1).db 1).map
          (fun n => (n.processing_status, n.error_message)) =
        some ("failed", some "No transcript available") ∧
      ((retryRun okEnv st5 1 1).commits.drop st5.commits.length).map
          Note.processing_status = ["processing", "failed"]) :=
  retry_clears_error_amended okEnv st5 1 1 exNote5 rfl rfl

/-- C1 amended: the transcript-edit reset to `pending` leaves error_message
untouched, so editing a failed note commits a `pending` row that still
carries the old error message; the explicit retry clears error_message on
its `failed → processing` commit; and within a run, every commit of
process_new_note and reprocess_note either carries the entry row's
error_message unchanged under an intermediate `transcribing`/`processing`
status — so the stale message of an edited failed note survives the
rerun's `processing` commit, where the iff is still violated — or is a
terminal commit satisfying the iff (`failed` records a message, `completed`
clears it); in particular the iff is only restored by the rerun's terminal
commit. -/
theorem error_message_invariant_amended (db : DB) (now : Int)
    (note_id user_id : Nat) (t : String) (noteA noteB noteC noteD : Note)
    (st stp stq : SysState) (env envq : PipelineEnv) :
    (getNote db note_id user_id = some noteA →
      ∀ res, update_note db now note_id user_id (some t) none none = some res →
        res.2.processing_status = "pending" ∧
        res.2.error_message = noteA.error_message) ∧
    (getNote st.db note_id user_id = some noteB →
      noteB.processing_status = "failed" →
      match retry_failed_note st note_id user_id with
      | Except.ok st1 => dbGet st1.db note_id = some { noteB with
          processing_status := "processing", error_message := none }
      | Except.error _ => False) ∧
    (dbGet stp.db note_id = some noteC →
      ∀ n' ∈ (process_new_note env stp note_id).commits.drop
          stp.commits.length,
        (n'.error_message = noteC.error_message ∧
          (n'.processing_status = "transcribing" ∨
            n'.processing_status = "processing")) ∨
        (n'.error_message ≠ none ↔ n'.processing_status = "failed")) ∧
    (dbGet stq.db note_id = some noteD →
      (¬ noteD.raw_transcript = "" →
        ((reprocess_note envq stq note_id).commits.drop
            stq.commits.length).head? =
          some { noteD with processing_status := "processing" }) ∧
      ∀ n' ∈ (reprocess_note envq stq note_id).commits.drop
          stq.commits.length,
        (n'.error_message = noteD.error_message ∧
          n'.processing_status = "processing") ∨
        (n'.error_message ≠ none ↔ n'.processing_status = "failed")) := by
  refine ⟨?_, ?_, ?_, ?_⟩
  · intro hget res hupd
    unfold update_note at hupd
    rw [hget] at hupd
    dsimp only at hupd
    injection hupd with hupd
    subst hupd
    exact ⟨rfl, rfl⟩
  · intro hget hfail
    obtain ⟨hdb, huid⟩ := getNote_dbGet hget
    have hid : noteB.id = note_id := dbGet_id_eq hdb
    have hcond : (noteB.processing_status != "failed") = false := by
      simp [hfail]
    have hret : retry_failed_note st note_id user_id = Except.ok
        (broadcastEvent (commitNote st { noteB with
          processing_status := "processing", error_message := none })
          user_id (noteStatusName noteB.id) "processing") := by
      unfold retry_failed_note
      rw [hget]
      dsimp only
      rw [hcond]
      rfl
    rw [hret]
    dsimp only [broadcastEvent, commitNote]
    exact dbGet_dbSet_self { noteB with
      processing_status := "processing", error_message := none } hdb hid
  · intro hdbp n' hn'
    unfold process_new_note at hn'
    rw [hdbp] at hn'
    dsimp only at hn'
    cases htr : transcribeStep env
        { noteC with processing_status := "transcribing" } with
    | error e =>
      rw [htr] at hn'
      dsimp only [failNote, commitNote, broadcastEvent] at hn'
      rw [List.append_assoc, List.drop_left] at hn'
      simp only [List.cons_append, List.nil_append, List.mem_cons,
        List.not_mem_nil, or_false] at hn'
      rcases hn' with rfl | rfl
      · exact Or.inl ⟨rfl, Or.inl rfl⟩
      · right
        simp
    | ok n2 =>
      have herrEq : n2.error_message = noteC.error_message :=
        (transcribeStep_ok_fields htr).2.2.2
      rw [htr] at hn'
      dsimp only at hn'
      cases hai : processNoteAI env
          { n2 with processing_status := "processing" } with
      | error e =>
        rw [hai] at hn'
        dsimp only [failNote, commitNote, broadcastEvent] at hn'
        simp only [List.append_assoc] at hn'
        rw [List.drop_left] at hn'
        simp only [List.cons_append, List.nil_append, List.mem_cons,
          List.not_mem_nil, or_false] at hn'
        rcases hn' with rfl | rfl | rfl
        · exact Or.inl ⟨rfl, Or.inl rfl⟩
        · exact Or.inl ⟨herrEq, Or.inr rfl⟩
        · right
          simp
      | ok ai =>
        rw [hai] at hn'
        dsimp only [completeNote, commitNote, broadcastEvent] at hn'
        simp only [List.append_assoc] at hn'
        rw [List.drop_left] at hn'
        simp only [List.cons_append, List.nil_append, List.mem_cons,
          List.not_mem_nil, or_false] at hn'
        rcases hn' with rfl | rfl | rfl
        · exact Or.inl ⟨rfl, Or.inl rfl⟩
        · exact Or.inl ⟨herrEq, Or.inr rfl⟩
        · right
          simp
  · intro hdbq
    by_cases hrt : noteD.raw_transcript = ""
    · have hb : (noteD.raw_transcript == "") = true := by simpa using hrt
      have hrun : reprocess_note envq stq note_id =
          commitNote stq { noteD with
            processing_status := "failed",
            error_message := some "No transcript available" } := by
        unfold reprocess_note
        rw [hdbq]
        dsimp only
        rw [if_pos hb]
      rw [hrun]
      dsimp only [commitNote]
      constructor
      · intro hne
        exact absurd hrt hne
      · intro n' hn'
        rw [List.drop_left] at hn'
        simp only [List.mem_singleton] at hn'
        subst hn'
        right
        simp
    · have hb : ¬ ((noteD.raw_transcript == "") = true) := by simpa using hrt
      cases hai : processNoteAI envq
          { noteD with processing_status := "processing" } with
      | error e =>
        have hrun : reprocess_note envq stq note_id =
            failNote envq (broadcastEvent (commitNote stq
                { noteD with processing_status := "processing" })
                noteD.user_id (noteStatusName noteD.id) "processing")
              { noteD with processing_status := "processing" } e := by
          unfold reprocess_note
          rw [hdbq]
          dsimp only
          rw [if_neg hb]
          rw [hai]
        rw [hrun]
        dsimp only [failNote, commitNote, broadcastEvent]
        constructor
        · intro _
          rw [List.append_assoc, List.drop_left]
          rfl
        · intro n' hn'
          rw [List.append_assoc, List.drop_left] at hn'
          simp only [List.cons_append, List.nil_append, List.mem_cons,
            List.not_mem_nil, or_false] at hn'
          rcases hn' with rfl | rfl
          · exact Or.inl ⟨rfl, rfl⟩
          · right
            simp
      | ok ai =>
        have hrun : reprocess_note envq stq note_id =
            completeNote envq (broadcastEvent (commitNote stq
                { noteD with processing_status := "processing" })
                noteD.user_id (noteStatusName noteD.id) "processing")
              { noteD with processing_status := "processing" } ai := by
          unfold reprocess_note
          rw [hdbq]
          dsimp only
          rw [if_neg hb]
          rw [hai]
        rw [hrun]
        dsimp only [completeNote, commitNote, broadcastEvent]
        constructor
        · intro _
          rw [List.append_assoc, List.drop_left]
          rfl
        · intro n' hn'
          rw [List.append_assoc, List.drop_left] at hn'
          simp only [List.cons_append, List.nil_append, List.mem_cons,
            List.not_mem_nil, or_false] at hn'
          rcases hn' with rfl | rfl
          · exact Or.inl ⟨rfl, rfl⟩
          · right
            simp

/-- Result row of editing the failed fixture note's transcript. -/
def exNote1Edited : Note :=
  { exNote1 with
    raw_transcript := "edited", processing_status := "pending",
    updated_at := 100 }

/-- Row committed by retrying the failed fixture note. -/
def exNote1Retry : Note :=
  { exNote1 with processing_status := "processing", error_message := none }

/-- First row committed by a fresh pipeline run over the base note. -/
def exBaseTrans : Note :=
  { baseNote with processing_status := "transcribing" }

/-- State holding only the failed fixture note. -/
def st1f : SysState := { db := [exNote1], events := [], commits := [], jobs := [] }

/-- State holding the edited-after-failure fixture note, as left by the
transcript edit that queued a reprocess. -/
def stEdited : SysState :=
  { db := [exNote1Edited], events := [], commits := [], jobs := [] }

/-- The `processing` row committed by the rerun over the edited-after-failure
fixture note: it still carries the stale error message. -/
def exNote1Reproc : Note :=
  { exNote1Edited with processing_status := "processing" }

/-- C1 witness: the four parts at concrete inputs — editing the failed
fixture note keeps its error message under a `pending` status, retrying it
clears the message, the first committed row of a fresh pipeline run keeps
the entry (null) error message, and the rerun over the edited failed note
first commits the `processing` row that still carries the stale message. -/
theorem error_message_invariant_witness :
    (exNote1Edited.processing_status = "pending" ∧
      exNote1Edited.error_message = exNote1.error_message) ∧
    dbGet (dbSet [exNote1] exNote1Retry) 1 = some exNote1Retry ∧
    ((exBaseTrans.error_message = baseNote.error_message ∧
        (exBaseTrans.processing_status = "transcribing" ∨
          exBaseTrans.processing_status = "processing")) ∨
      (exBaseTrans.error_message ≠ none ↔
        exBaseTrans.processing_status = "failed")) ∧
    ((reprocess_note okEnv stEdited 1).commits.drop
        stEdited.commits.length).head? = some exNote1Reproc ∧
    ((exNote1Reproc.error_message = exNote1Edited.error_message ∧
        exNote1Reproc.processing_status = "processing") ∨
      (exNote1Reproc.error_message ≠ none ↔
        exNote1Reproc.processing_status = "failed")) := by
  have h := error_message_invariant_amended [exNote1] 100 1 1 "edited"
    exNote1 exNote1 baseNote exNote1Edited st1f st0 stEdited okEnv okEnv
  refine ⟨?_, ?_, ?_, ?_, ?_⟩
  · exact h.1 rfl ([exNote1Edited], exNote1Edited) (by rfl)
  · exact h.2.1 rfl rfl
  · exact h.2.2.1 rfl exBaseTrans (by decide)
  · exact (h.2.2.2 rfl).1 (by decide)
  · exact (h.2.2.2 rfl).2 exNote1Reproc (by decide)

/-- C3: get_similar_notes on a source note that has an embedding returns
the similarity rows, and those satisfy the contract: at most `limit`
results, each owned by the same owner, not archived, with a non-null
embedding whose byte length equals the source embedding's, never the source
note itself, ordered by non-decreasing distance to the source vector. -/
theorem similar_notes_contract (dist : Bytes → Bytes → Int) (db : DB)
    (note_id user_id limit : Nat) (src : Note) (q : Bytes)
    (hget : getNote db note_id user_id = some src)
    (hemb : src.embedding = some q) :
    get_similar_notes dist db note_id user_id limit =
      some (similarRows dist db user_id note_id q limit) ∧
    (similarRows dist db user_id note_id q limit).length ≤ limit ∧
    (∀ n ∈ similarRows dist db user_id note_id q limit,
      n.user_id = user_id ∧ n.archived = false ∧ n.id ≠ note_id ∧
      n.id ≠ src.id ∧ ∃ e, n.embedding = some e ∧ e.length = q.length) ∧
    (similarRows dist db user_id note_id q limit).Pairwise
      (fun a b => distKey dist q a ≤ distKey dist q b) := by
  obtain ⟨hdb, huid⟩ := getNote_dbGet hget
  have hsrc : src.id = note_id := dbGet_id_eq hdb
  refine ⟨?_, ?_, ?_, ?_⟩
  · unfold get_similar_notes
    rw [hget]
    dsimp only
    rw [hemb]
  · unfold similarRows
    rw [List.length_take]
    exact min_le_left _ _
  · intro n hn
    unfold similarRows at hn
    have hn2 := List.take_subset _ _ hn
    rw [List.mem_insertionSort] at hn2
    rw [List.mem_filter] at hn2
    obtain ⟨hmem, hcond⟩ := hn2
    simp only [Bool.and_eq_true, beq_iff_eq, bne_iff_ne, ne_eq,
      Option.isSome_iff_exists] at hcond
    obtain ⟨⟨⟨⟨hu, harch⟩, he⟩, hid⟩, hlen⟩ := hcond
    obtain ⟨e, he⟩ := he
    have hel : embLen n = e.length := by
      simp [embLen, he]
    refine ⟨hu, harch, hid, ?_, e, he, ?_⟩
    · rw [hsrc]
      exact hid
    · rw [← hel]
      exact hlen
  · unfold similarRows
    have hs : List.Sorted (fun a b => distKey dist q a ≤ distKey dist q b)
        (List.insertionSort (fun a b => distKey dist q a ≤ distKey dist q b)
          (db.filter (fun n =>
            n.user_id == user_id && n.archived == false &&
              n.embedding.isSome && n.id != note_id &&
              embLen n == q.length))) := by
      haveI : IsTotal Note (fun a b => distKey dist q a ≤ distKey dist q b) :=
        ⟨fun a b => le_total _ _⟩
      haveI : IsTrans Note (fun a b => distKey dist q a ≤ distKey dist q b) :=
        ⟨fun a b c hab hbc => le_trans hab hbc⟩
      exact List.sorted_insertionSort _ _
    exact List.Pairwise.sublist (List.take_sublist _ _) hs

/-- Completed source note for the similarity witness. -/
def exSimA : Note :=
  { baseNote with processing_status := "completed", embedding := some [1, 2] }

/-- Second completed note of the same owner, matching dimension. -/
def exSimB : Note :=
  { baseNote with
    id := 2, processing_status := "completed", embedding := some [3, 4] }

/-- Archived note of the same owner. -/
def exSimC : Note :=
  { baseNote with
    id := 3, processing_status := "completed", embedding := some [5, 6],
    archived := true }

/-- Note of the same owner with a mismatched embedding dimension. -/
def exSimD : Note :=
  { baseNote with
    id := 4, processing_status := "completed", embedding := some [7, 8, 9] }

/-- Similarity witness table. -/
def exDb3 : DB := [exSimA, exSimB, exSimC, exSimD]

/-- Concrete stand-in distance for the similarity witness. -/
def exDist : Bytes → Bytes → Int :=
  fun a _ => (a.foldl (fun s x => s + x) 0 : Nat)

/-- C3 witness: the similarity query on the four-note fixture table. -/
theorem similar_notes_contract_witness :
    get_similar_notes exDist exDb3 1 1 5 =
      some (similarRows exDist exDb3 1 1 [1, 2] 5) ∧
    (similarRows exDist exDb3 1 1 [1, 2] 5).length ≤ 5 ∧
    (∀ n ∈ similarRows exDist exDb3 1 1 [1, 2] 5,
      n.user_id = 1 ∧ n.archived = false ∧ n.id ≠ 1 ∧ n.id ≠ exSimA.id ∧
      ∃ e, n.embedding = some e ∧ e.length = ([1, 2] : Bytes).length) ∧
    (similarRows exDist exDb3 1 1 [1, 2] 5).Pairwise
      (fun a b => distKey exDist [1, 2] a ≤ distKey exDist [1, 2] b) :=
  similar_notes_contract exDist exDb3 1 1 5 exSimA [1, 2] rfl rfl

end Scribe
